import Mathlib

/-!
Verification of the Research Orchestration Engine of
Automated-AI-Web-Researcher-Ollama against its specification.

The definitions below are a shallow embedding of `ollama_client.py`
(class `OllamaClient`: `generate` with its tenacity retry decorator,
`_handle_streaming_response`) together with a model, taken from the
specification, of the research pipeline (`ResearchManager.research`,
whose source file is not part of the checked tree).

Python dictionaries that the code builds and yields are embedded as
structures whose fields are `Option`-valued where the corresponding key
may be absent from the dictionary; JSON parse results are embedded as an
inductive describing the shapes the code distinguishes with
`isinstance`.
-/

namespace Ollama

/-- An event dictionary produced by `OllamaClient.generate` or
`OllamaClient._handle_streaming_response`.  Every dictionary the code
constructs carries a `"response"` key; the other keys are present in
some of the constructed dictionaries and absent in others, so they are
`Option`-valued (`none` means the key is absent). -/
structure GenEvent where
  response : String
  model : Option String
  created_at : Option String
  done : Option Bool
  error : Option String
deriving DecidableEq, Repr

/-- An event signals definitive completion when its `"done"` value is
`True` or it carries an `"error"` key. -/
def isTerminal (e : GenEvent) : Bool :=
  e.done == some true || e.error.isSome

/-- Result of `json.loads` on a wire payload, restricted to the shapes
the code distinguishes: a JSON string (`isinstance(result, str)`), a
JSON object (`isinstance(result, dict)`) with the four fields the code
reads (absent fields are `none`), or any other JSON value together with
its `str()` rendering. -/
inductive JVal
  | str (s : String)
  | dict (response : Option String) (model : Option String)
         (created_at : Option String) (done : Option Bool)
  | other (rendered : String)
deriving DecidableEq, Repr

/-- One element of `response.iter_lines()`: an empty (falsy) line, a
line whose bytes parse as JSON, or a line whose bytes fail to parse as
JSON, carrying its UTF-8 decoding. -/
inductive WireLine
  | empty
  | json (v : JVal)
  | text (s : String)
deriving DecidableEq, Repr

/-- The dictionary yielded for a streamed line that parsed as a JSON
object (`ollama_client.py` lines 126-131). -/
def dictLineEvent (r m c : Option String) (d : Option Bool) : GenEvent :=
  { response := r.getD "", model := some (m.getD ""),
    created_at := some (c.getD ""), done := some (d.getD false),
    error := none }

/-- The dictionary yielded for a streamed line that is non-object JSON
or fails to parse as JSON; both branches of the code
(`ollama_client.py` lines 138-143 and 150-155) build the same shape
from the extracted text. -/
def textFallbackEvent (s : String) : GenEvent :=
  { response := s, model := some "", created_at := some "",
    done := some false, error := none }

/-- The observable per-call effects of the streaming loop: the yielded
event dictionaries, the fragments appended to `buffer`, and the
arguments passed to the chunk `callback` (when one is supplied). -/
structure StreamAcc where
  events : List GenEvent
  buffer : List String
  calls : List String
deriving DecidableEq, Repr

/-- Effects of one iteration of the `for line in response.iter_lines()`
loop (`ollama_client.py` lines 111-155): empty lines are skipped; a
JSON-object line yields an event and buffers/forwards its `"response"`
text when that text is non-empty; any other line yields its text as a
plain fragment. -/
def lineAcc : WireLine → StreamAcc
  | WireLine.empty => ⟨[], [], []⟩
  | WireLine.json (JVal.dict r m c d) =>
      let rt := r.getD ""
      if rt = "" then ⟨[dictLineEvent r m c d], [], []⟩
      else ⟨[dictLineEvent r m c d], [rt], [rt]⟩
  | WireLine.json (JVal.str s) => ⟨[textFallbackEvent s], [s], [s]⟩
  | WireLine.json (JVal.other s) => ⟨[textFallbackEvent s], [s], [s]⟩
  | WireLine.text s => ⟨[textFallbackEvent s], [s], [s]⟩

/-- Accumulated effects of running the streaming loop over a list of
wire lines. -/
def processLines : List WireLine → StreamAcc
  | [] => ⟨[], [], []⟩
  | l :: rest =>
      let a := lineAcc l
      let b := processLines rest
      ⟨a.events ++ b.events, a.buffer ++ b.buffer, a.calls ++ b.calls⟩

/-- Python string concatenation `"".join(buffer)`. -/
def concatAll : List String → String
  | [] => ""
  | s :: rest => s ++ concatAll rest

/-- The final chunk yielded after the line loop ends
(`ollama_client.py` lines 157-164). -/
def finalEvent (buffer : List String) : GenEvent :=
  { response := concatAll buffer, model := some "", created_at := some "",
    done := some true, error := none }

/-- The dictionary yielded when an exception escapes the line loop
(`ollama_client.py` lines 166-172). -/
def streamErrorEvent (msg : String) : GenEvent :=
  { response := "", model := none, created_at := none,
    done := some true, error := some msg }

/-- `OllamaClient._handle_streaming_response`: iterate the lines; when
iteration finishes normally (`exc = none`) yield the buffered
concatenation as a final chunk; when an exception with message `m` is
raised after the given lines were processed (`exc = some m`), the
`except` clause yields a single error dictionary instead. -/
def handleStreamingResponse (lines : List WireLine) (exc : Option String) :
    StreamAcc :=
  let a := processLines lines
  match exc with
  | none => ⟨a.events ++ [finalEvent a.buffer], a.buffer, a.calls⟩
  | some m => ⟨a.events ++ [streamErrorEvent m], a.buffer, a.calls⟩

/-- The text fragments extracted from a line sequence, concatenated in
order; this is exactly the buffer contents joined, `"".join(buffer)`. -/
def extractedText (lines : List WireLine) : String :=
  concatAll (processLines lines).buffer

/-- A non-streaming response body: either `response.json()` succeeds
with some JSON value, or it raises `json.JSONDecodeError` and
`response.text` holds the raw body. -/
inductive Body
  | parsed (v : JVal)
  | unparseable (text : String)
deriving DecidableEq, Repr

/-- Non-streaming reply handling of `OllamaClient.generate`
(`ollama_client.py` lines 66-97): a bare JSON string, a JSON object
with defaulted fields, any other JSON value via its `str()` rendering,
and an unparseable body passed through as raw text. -/
def handleNonStreaming (model : String) (body : Body) : GenEvent :=
  match body with
  | Body.parsed (JVal.str s) =>
      { response := s, model := some model, created_at := some "",
        done := some true, error := none }
  | Body.parsed (JVal.dict r m c d) =>
      { response := r.getD "", model := some (m.getD model),
        created_at := some (c.getD ""), done := some (d.getD true),
        error := none }
  | Body.parsed (JVal.other s) =>
      { response := s, model := some model, created_at := some "",
        done := some true, error := none }
  | Body.unparseable t =>
      { response := t, model := some model, created_at := some "",
        done := some true, error := none }

/-- Outcome of one `requests.post` attempt: a successful non-streaming
body, a `requests.exceptions.Timeout`, or another
`requests.exceptions.RequestException` whose `str()` is `msg`. -/
inductive TransportOutcome
  | ok (body : Body)
  | timeout
  | reqError (msg : String)
deriving DecidableEq, Repr

/-- The dictionary returned by the `except requests.exceptions.Timeout`
clause (`ollama_client.py` line 101). -/
def timeoutEvent : GenEvent :=
  { response := "", model := none, created_at := none, done := none,
    error := some "Request timed out" }

/-- The dictionary returned by the
`except requests.exceptions.RequestException` clause
(`ollama_client.py` line 104). -/
def reqErrorEvent (msg : String) : GenEvent :=
  { response := "", model := none, created_at := none, done := none,
    error := some msg }

/-- A Python dictionary of generation options restricted to the
integer-valued entries the claims are about (`max_tokens` and other
numeric passthrough keys), embedded as an ordered association list with
distinct keys, the way CPython dictionaries behave. -/
abbrev OptionsDict := List (String × Int)

/-- Python `d[key]` / `key in d` lookup. -/
def dictGet : OptionsDict → String → Option Int
  | [], _ => none
  | (k, v) :: rest, key => if k = key then some v else dictGet rest key

/-- Python `d[key] = val`: replaces the value of an existing key in
place (keeping insertion order) or appends a new binding. -/
def dictSet : OptionsDict → String → Int → OptionsDict
  | [], key, val => [(key, val)]
  | (k, v) :: rest, key, val =>
      if k = key then (key, val) :: rest else (k, v) :: dictSet rest key val

/-- The `max_tokens` normalization inside `OllamaClient.generate`
(`ollama_client.py` lines 55-56): when the key is present, overwrite it
with `min(options["max_tokens"], self.context_window)`. -/
def clampMaxTokens (contextWindow : Int) (options : OptionsDict) :
    OptionsDict :=
  match dictGet options "max_tokens" with
  | some v => dictSet options "max_tokens" (min v contextWindow)
  | none => options

/-- One execution of `generate`'s body for a non-streaming call,
producing the option entries merged into the request payload by
`data.update(options)`, the contents of the caller's (mutated) options
dictionary after the call, and the returned event dictionary.  The
`options` dict is only touched when it is truthy (`if options:`). -/
def generateAttemptBody (contextWindow : Int) (model : String)
    (options : OptionsDict) (tr : TransportOutcome) :
    OptionsDict × OptionsDict × GenEvent :=
  let callerOpts :=
    if options.isEmpty then options else clampMaxTokens contextWindow options
  let dataOpts := if options.isEmpty then [] else callerOpts
  let ev :=
    match tr with
    | TransportOutcome.ok body => handleNonStreaming model body
    | TransportOutcome.timeout => timeoutEvent
    | TransportOutcome.reqError m => reqErrorEvent m
  (dataOpts, callerOpts, ev)

/-- Semantics of the tenacity decorator
`@retry(stop=stop_after_attempt(3), wait=wait_exponential(...))`: the
wrapped callable is re-invoked while it raises, up to the given number
of attempts, after which a `RetryError` is raised.  `call i` is attempt
number `i`; `Except.error` models a raised exception. -/
def retryCall {α : Type} (call : Nat → Except String α) :
    Nat → Nat → Except String α
  | 0, _ => Except.error "RetryError"
  | fuel + 1, i =>
      match call i with
      | Except.ok v => Except.ok v
      | Except.error e =>
          if fuel = 0 then Except.error ("RetryError: " ++ e)
          else retryCall call fuel (i + 1)

/-- Aggregate observable outcome of one `generate` call: option entries
submitted in the request payload, the caller's options dictionary after
the call (the code mutates it in place), and the returned event; an
`Except.error` result would be an exception escaping the client. -/
structure GenerateOutcome where
  data_options : OptionsDict
  callerOptions : OptionsDict
  result : Except String GenEvent
deriving Repr

/-- `OllamaClient.generate` for a non-streaming call, with `transport i`
the outcome of the underlying `requests.post` on attempt `i`.  The body
catches `Timeout` and `RequestException` itself and returns an error
dictionary, so the wrapped callable never raises and the tenacity
wrapper returns whatever the first attempt produced. -/
def generate (contextWindow : Int) (model : String) (options : OptionsDict)
    (transport : Nat → TransportOutcome) : GenerateOutcome :=
  match retryCall
      (fun i =>
        Except.ok (generateAttemptBody contextWindow model options
          (transport i))) 3 0 with
  | Except.ok (d, o, e) => ⟨d, o, Except.ok e⟩
  | Except.error msg => ⟨[], options, Except.error msg⟩

/-- Modelled from the spec: the progress stage tags of the research
pipeline (`ResearchManager.research`, whose source file is not in the
checked tree; only its caller `app.py` is). -/
inductive Stage
  | planning
  | areaSearch
  | areaSummary
  | aggregating
  | complete
  | error
deriving DecidableEq, Repr

/-- Modelled from the spec: a pipeline progress event with a stage tag,
a human-readable message, and a fractional progress in `[0, 1]`. -/
structure ProgressEvent where
  stage : Stage
  message : String
  fraction : ℚ
deriving DecidableEq, Repr

/-- Modelled from the spec: total steps of a run, `1` (plan) plus
`N * depth` (search iterations, early-stopped ones included) plus `N`
(summaries) plus `1` (aggregate). -/
def totalSteps (numAreas depth : Nat) : Nat :=
  1 + numAreas * depth + numAreas + 1

/-- Modelled from the spec: the stage tag attached to the progress
event emitted after completing step `k` of the linear
plan / search / summarize / aggregate sequence; the final (aggregate)
step emits the terminal `Complete` event at fraction `1`. -/
def stageOfStep (numAreas depth k : Nat) : Stage :=
  if k ≤ 1 then Stage.planning
  else if k ≤ 1 + numAreas * depth then Stage.areaSearch
  else if k ≤ 1 + numAreas * depth + numAreas then Stage.areaSummary
  else Stage.complete

/-- Modelled from the spec: the human-readable message of step `k`
(its contents are unconstrained by the claims). -/
def stepMessage (k : Nat) : String :=
  "step " ++ toString k

/-- Modelled from the spec: run the pipeline steps from step `k` on,
with `fuel` steps remaining (`fuel + k = totalSteps + 1` at every
call).  `outcome k = none` means the generation call of step `k`
succeeds; `outcome k = some msg` means it reports an error, whereupon
the pipeline emits a single `Error` event (at the fraction already
reached) and stops issuing further requests. -/
def runFrom (numAreas depth : Nat) (outcome : Nat → Option String) :
    Nat → Nat → List ProgressEvent
  | 0, _ => []
  | fuel + 1, k =>
      match outcome k with
      | some msg =>
          [{ stage := Stage.error, message := msg,
             fraction := ((k : ℚ) - 1) / (totalSteps numAreas depth : ℚ) }]
      | none =>
          { stage := stageOfStep numAreas depth k,
            message := stepMessage k,
            fraction := (k : ℚ) / (totalSteps numAreas depth : ℚ) }
            :: runFrom numAreas depth outcome fuel (k + 1)

/-- Modelled from the spec: one full pipeline run over its
`totalSteps` steps, producing the ordered list of progress events. -/
def pipelineRun (numAreas depth : Nat) (outcome : Nat → Option String) :
    List ProgressEvent :=
  runFrom numAreas depth outcome (totalSteps numAreas depth) 1

/-- Any `Error`-staged event is the last event of the list. -/
def errorIsLast : List ProgressEvent → Bool
  | [] => true
  | [_] => true
  | e :: rest => !(decide (e.stage = Stage.error)) && errorIsLast rest

/-- The list is nonempty and its last event is `Complete`-staged. -/
def lastIsComplete : List ProgressEvent → Bool
  | [] => false
  | [e] => decide (e.stage = Stage.complete)
  | _ :: rest => lastIsComplete rest

/-- Some event of the list carries fraction exactly `1`. -/
def reachesFullProgress (es : List ProgressEvent) : Bool :=
  es.any (fun e => decide (e.fraction = 1))

/-- The event list consists of zero or more non-terminal events
followed by exactly one terminal event: the claimed ordering invariant
for a single generation request. -/
def okOrdering : List GenEvent → Bool
  | [] => false
  | [e] => isTerminal e
  | e :: rest => !isTerminal e && okOrdering rest

/-- Whether a wire line is a JSON object carrying `"done": true`. -/
def lineCarriesDoneTrue : WireLine → Bool
  | WireLine.json (JVal.dict _ _ _ (some true)) => true
  | _ => false

/-- The response text a non-streaming body carries, as the spec
describes it: the bare string itself, the object's `response` field
(defaulting to empty), the rendering of another JSON value, or the raw
text of an unparseable body. -/
def bodyResponseText : Body → String
  | Body.parsed (JVal.str s) => s
  | Body.parsed (JVal.dict r _ _ _) => r.getD ""
  | Body.parsed (JVal.other s) => s
  | Body.unparseable t => t

/-- The `done` flag a non-streaming body reports, when it is a JSON
object that has one. -/
def bodyDoneFlag : Body → Option Bool
  | Body.parsed (JVal.dict _ _ _ d) => d
  | _ => none

/-- The model id the non-streaming event should echo: the body's own
`model` field when present, else the request's model id. -/
def bodyModelEcho (model : String) : Body → String
  | Body.parsed (JVal.dict _ m _ _) => m.getD model
  | _ => model

/-- The completion timestamp the non-streaming event should echo: the
body's `created_at` field when present, else empty. -/
def bodyCreatedEcho : Body → String
  | Body.parsed (JVal.dict _ _ c _) => c.getD ""
  | _ => ""

/-- The transport behaviour of the spec's retry scenario: the first two
attempts time out and every later attempt succeeds with body
`"hello"`. -/
def failTwiceTransport : Nat → TransportOutcome
  | 0 => TransportOutcome.timeout
  | 1 => TransportOutcome.timeout
  | _ => TransportOutcome.ok (Body.parsed (JVal.str "hello"))

theorem concatAll_append (xs ys : List String) :
    concatAll (xs ++ ys) = concatAll xs ++ concatAll ys := by
  induction xs with
  | nil => simp [concatAll]
  | cons x xs ih => simp [concatAll, ih, String.append_assoc]

theorem processLines_append (xs ys : List WireLine) :
    processLines (xs ++ ys) =
      ⟨(processLines xs).events ++ (processLines ys).events,
       (processLines xs).buffer ++ (processLines ys).buffer,
       (processLines xs).calls ++ (processLines ys).calls⟩ := by
  induction xs with
  | nil => simp [processLines]
  | cons x xs ih => simp [processLines, ih, List.append_assoc]

theorem lineAcc_events_nonterminal (l : WireLine)
    (h : lineCarriesDoneTrue l = false) :
    (lineAcc l).events.all (fun e => !isTerminal e) = true := by
  cases l with
  | empty => rfl
  | text s => rfl
  | json v =>
    cases v with
    | str s => rfl
    | other s => rfl
    | dict r m c d =>
      cases d with
      | none =>
          by_cases hr : r.getD "" = "" <;>
            simp [lineAcc, isTerminal, dictLineEvent, hr]
      | some b =>
          cases b with
          | true => simp [lineCarriesDoneTrue] at h
          | false =>
              by_cases hr : r.getD "" = "" <;>
                simp [lineAcc, isTerminal, dictLineEvent, hr]

theorem processLines_nonterminal (lines : List WireLine)
    (h : lines.all (fun l => !lineCarriesDoneTrue l) = true) :
    (processLines lines).events.all (fun e => !isTerminal e) = true := by
  induction lines with
  | nil => rfl
  | cons l rest ih =>
      simp only [List.all_cons, Bool.and_eq_true, Bool.not_eq_true'] at h
      have h1 := lineAcc_events_nonterminal l h.1
      have h2 := ih h.2
      simp [processLines, List.all_append, h1, h2]

theorem lineAcc_events_no_error (l : WireLine) :
    (lineAcc l).events.all (fun e => e.error.isNone) = true := by
  cases l with
  | empty => rfl
  | text s => rfl
  | json v =>
    cases v with
    | str s => rfl
    | other s => rfl
    | dict r m c d =>
        by_cases hr : r.getD "" = "" <;>
          simp [lineAcc, dictLineEvent, hr]

theorem processLines_no_error (lines : List WireLine) :
    (processLines lines).events.all (fun e => e.error.isNone) = true := by
  induction lines with
  | nil => rfl
  | cons l rest ih =>
      simp [processLines, List.all_append, lineAcc_events_no_error l, ih]

theorem okOrdering_append_terminal (es : List GenEvent) (t : GenEvent)
    (h1 : es.all (fun e => !isTerminal e) = true)
    (h2 : isTerminal t = true) :
    okOrdering (es ++ [t]) = true := by
  induction es with
  | nil => simpa [okOrdering] using h2
  | cons e rest ih =>
      simp only [List.all_cons, Bool.and_eq_true, Bool.not_eq_true'] at h1
      have h3 := ih (by simpa using h1.2)
      cases rest with
      | nil => simp [okOrdering, h1.1, h2]
      | cons r rs =>
          simpa [okOrdering, h1.1] using h3

/-- C1 (code_bug): the `@retry(stop=stop_after_attempt(3), ...)`
decorator on `generate` documents retry on transport failure, but the
body catches `Timeout` and `RequestException` itself and returns an
error dictionary, so the decorator never observes an exception.  On a
transport that times out twice and would succeed on the third attempt,
the call returns the terminal error event of the very first attempt:
no retry happens and no successful terminal event is produced, contrary
to the claim (the never-throwing part does hold: the result is a
returned event, not a raised exception). -/
theorem c1_retry_never_fires :
    (generate 4096 "researcher" [] failTwiceTransport).result
      = Except.ok timeoutEvent
    ∧ timeoutEvent.error = some "Request timed out"
    ∧ isTerminal timeoutEvent = true
    ∧ (handleNonStreaming "researcher"
        (Body.parsed (JVal.str "hello"))).error = none :=
  ⟨rfl, rfl, rfl, rfl⟩

/-- C2 (counterexample): a single wire line carrying `"done": true` is
passed through as an event with `done = true` — a terminal event — and
the buffer-derived final event still follows it, so the run contains a
terminal event that is not last, refuting the claimed ordering
invariant as stated. -/
theorem c2_done_passthrough_counterexample :
    (handleStreamingResponse
        [WireLine.json (JVal.dict (some "x") none none (some true))]
        none).events
      = [dictLineEvent (some "x") none none (some true), finalEvent ["x"]]
    ∧ isTerminal (dictLineEvent (some "x") none none (some true)) = true
    ∧ okOrdering (handleStreamingResponse
        [WireLine.json (JVal.dict (some "x") none none (some true))]
        none).events = false :=
  ⟨rfl, rfl, rfl⟩

/-- C2 (amended): provided no wire line carries a `done:true` flag, the
event sequence of a streaming call consists of zero or more
non-terminal events followed by exactly one terminal event (the
buffer-derived final chunk on normal completion, the error event when
iteration raises), with no event after it. -/
theorem c2_ordering_amended (lines : List WireLine) (exc : Option String)
    (h : lines.all (fun l => !lineCarriesDoneTrue l) = true) :
    okOrdering (handleStreamingResponse lines exc).events = true := by
  have hnt := processLines_nonterminal lines h
  cases exc with
  | none =>
      simp only [handleStreamingResponse]
      exact okOrdering_append_terminal _ _ hnt rfl
  | some m =>
      simp only [handleStreamingResponse]
      exact okOrdering_append_terminal _ _ hnt rfl

theorem c2_ordering_amended_witness :
    ([WireLine.text "a",
      WireLine.json (JVal.dict (some "b") none none none)].all
        (fun l => !lineCarriesDoneTrue l) = true)
    ∧ okOrdering (handleStreamingResponse
        [WireLine.text "a",
         WireLine.json (JVal.dict (some "b") none none none)]
        none).events = true :=
  ⟨rfl, c2_ordering_amended _ _ rfl⟩

/-- C3: when line iteration ends without an exception, the last event
of the stream is the buffer-derived final chunk, its text is exactly
the concatenation of all buffered fragments extracted from the lines,
it is terminal, and consequently two line sequences whose extracted
fragments concatenate to the same text yield the same terminal text
(split-invariance). -/
theorem c3_terminal_text_buffer_derived (lines lines2 : List WireLine) :
    (handleStreamingResponse lines none).events.getLast?
      = some (finalEvent (processLines lines).buffer)
    ∧ (finalEvent (processLines lines).buffer).response = extractedText lines
    ∧ isTerminal (finalEvent (processLines lines).buffer) = true
    ∧ (extractedText lines = extractedText lines2 →
        ((handleStreamingResponse lines none).events.getLast?).map
            GenEvent.response
          = ((handleStreamingResponse lines2 none).events.getLast?).map
            GenEvent.response) := by
  refine ⟨?_, rfl, rfl, ?_⟩
  · simp [handleStreamingResponse]
  · intro h
    simp [handleStreamingResponse, finalEvent, extractedText] at h ⊢
    exact h

theorem c3_terminal_text_buffer_derived_witness :
    extractedText [WireLine.text "hello"]
      = extractedText [WireLine.text "he", WireLine.text "llo"]
    ∧ ((handleStreamingResponse [WireLine.text "hello"]
          none).events.getLast?).map GenEvent.response
      = ((handleStreamingResponse [WireLine.text "he", WireLine.text "llo"]
          none).events.getLast?).map GenEvent.response :=
  ⟨by decide, (c3_terminal_text_buffer_derived _ _).2.2.2 (by decide)⟩

/-- C7: a line that fails to parse as JSON does not abort the stream:
its decoded text is yielded as one non-terminal event, appended to the
buffer, forwarded to the callback, the following lines are still
processed, and the text contributes in place to the terminal
concatenation. -/
theorem c7_nonjson_line_resilience (pre post : List WireLine) (s : String) :
    (processLines (pre ++ WireLine.text s :: post)).events
      = (processLines pre).events
          ++ textFallbackEvent s :: (processLines post).events
    ∧ (processLines (pre ++ WireLine.text s :: post)).buffer
      = (processLines pre).buffer ++ s :: (processLines post).buffer
    ∧ (processLines (pre ++ WireLine.text s :: post)).calls
      = (processLines pre).calls ++ s :: (processLines post).calls
    ∧ isTerminal (textFallbackEvent s) = false
    ∧ extractedText (pre ++ WireLine.text s :: post)
      = concatAll (processLines pre).buffer
          ++ (s ++ concatAll (processLines post).buffer) := by
  refine ⟨?_, ?_, ?_, rfl, ?_⟩ <;>
    simp [processLines_append, processLines, lineAcc, extractedText,
      concatAll_append, concatAll]

/-- C8: an exception raised while iterating the line stream is caught
by the handler, which yields exactly one additional event: a terminal
error event carrying the exception text; every event yielded before it
carries no error key, and nothing follows it. -/
theorem c8_stream_exception_contained (lines : List WireLine) (m : String) :
    (handleStreamingResponse lines (some m)).events
      = (processLines lines).events ++ [streamErrorEvent m]
    ∧ (streamErrorEvent m).error = some m
    ∧ isTerminal (streamErrorEvent m) = true
    ∧ (processLines lines).events.all (fun e => e.error.isNone) = true :=
  ⟨rfl, rfl, rfl, processLines_no_error lines⟩

/-- C10: an empty wire line is skipped entirely: the streaming run over
any line sequence containing it produces exactly the events, buffered
fragments and callback invocations of the same sequence without it. -/
theorem c10_empty_line_skipped (pre post : List WireLine)
    (exc : Option String) :
    processLines (pre ++ WireLine.empty :: post)
      = processLines (pre ++ post)
    ∧ handleStreamingResponse (pre ++ WireLine.empty :: post) exc
      = handleStreamingResponse (pre ++ post) exc := by
  have h1 : processLines (pre ++ WireLine.empty :: post)
      = processLines (pre ++ post) := by
    simp [processLines_append, processLines, lineAcc]
  exact ⟨h1, by simp [handleStreamingResponse, h1]⟩

theorem dictGet_dictSet_self (d : OptionsDict) (k : String) (v : Int) :
    dictGet (dictSet d k v) k = some v := by
  induction d with
  | nil => simp [dictGet, dictSet]
  | cons p rest ih =>
      obtain ⟨a, b⟩ := p
      by_cases h : a = k <;> simp [dictGet, dictSet, h, ih]

theorem dictGet_clampMaxTokens (cw : Int) (options : OptionsDict) :
    dictGet (clampMaxTokens cw options) "max_tokens"
      = (dictGet options "max_tokens").map (fun v => min v cw) := by
  cases h : dictGet options "max_tokens" with
  | none => simp [clampMaxTokens, h]
  | some v => simp [clampMaxTokens, h, dictGet_dictSet_self]

/-- C4: the `max_tokens` entry submitted to the server is the requested
value clamped to the context window, `min(requested, context_window)`;
options without a `max_tokens` entry are submitted unchanged.  With
context window 4096, a requested 9000 is submitted as 4096 and a
requested 2000 stays 2000. -/
theorem c4_max_tokens_clamped (contextWindow : Int) (model : String)
    (options : OptionsDict) (transport : Nat → TransportOutcome) :
    dictGet (generate contextWindow model options transport).data_options
        "max_tokens"
      = (dictGet options "max_tokens").map (fun v => min v contextWindow)
    ∧ ((dictGet options "max_tokens").isNone = true →
        (generate contextWindow model options transport).data_options
          = options)
    ∧ dictGet (generate 4096 model [("max_tokens", 9000)]
        transport).data_options "max_tokens" = some 4096
    ∧ dictGet (generate 4096 model [("max_tokens", 2000)]
        transport).data_options "max_tokens" = some 2000 := by
  refine ⟨?_, ?_, rfl, rfl⟩
  · cases options with
    | nil => rfl
    | cons p rest =>
        simpa [generate, retryCall, generateAttemptBody]
          using dictGet_clampMaxTokens contextWindow (p :: rest)
  · intro h
    rw [Option.isNone_iff_eq_none] at h
    cases options with
    | nil => rfl
    | cons p rest =>
        simp [generate, retryCall, generateAttemptBody, clampMaxTokens, h]

theorem c4_max_tokens_clamped_witness :
    (dictGet [("temperature", 7)] "max_tokens").isNone = true
    ∧ (generate 4096 "researcher" [("temperature", 7)]
        (fun _ => TransportOutcome.timeout)).data_options
      = [("temperature", 7)] :=
  ⟨rfl, (c4_max_tokens_clamped 4096 "researcher" _ _).2.1 rfl⟩

/-- C9: when the caller passes an options dictionary whose `max_tokens`
exceeds the context window, `generate` writes the clamped value into
that very dictionary, so after the call the caller observes the clamped
value rather than the one originally passed in. -/
theorem c9_caller_options_mutated (contextWindow : Int) (model : String)
    (options : OptionsDict) (transport : Nat → TransportOutcome) (v : Int)
    (h1 : dictGet options "max_tokens" = some v)
    (h2 : contextWindow < v) :
    dictGet (generate contextWindow model options transport).callerOptions
        "max_tokens" = some contextWindow
    ∧ dictGet (generate contextWindow model options transport).callerOptions
        "max_tokens" ≠ some v := by
  have hne : options ≠ [] := by
    intro hnil; subst hnil; simp [dictGet] at h1
  have hmin : min v contextWindow = contextWindow :=
    min_eq_right (le_of_lt h2)
  have hget : dictGet
      (generate contextWindow model options transport).callerOptions
        "max_tokens" = some contextWindow := by
    cases options with
    | nil => exact absurd rfl hne
    | cons p rest =>
        simp [generate, retryCall, generateAttemptBody, clampMaxTokens, h1,
          dictGet_dictSet_self, hmin]
  refine ⟨hget, ?_⟩
  rw [hget]
  intro hcontra
  have : contextWindow = v := by injection hcontra
  omega

theorem c9_caller_options_mutated_witness :
    dictGet [("max_tokens", 9000)] "max_tokens" = some 9000
    ∧ ((4096 : Int) < 9000)
    ∧ dictGet (generate 4096 "researcher" [("max_tokens", 9000)]
        (fun _ => TransportOutcome.timeout)).callerOptions "max_tokens"
      = some 4096 :=
  ⟨rfl, by decide,
    (c9_caller_options_mutated 4096 "researcher" [("max_tokens", 9000)]
      (fun _ => TransportOutcome.timeout) 9000 rfl (by decide)).1⟩

/-- C5 (counterexample): a structured JSON body that explicitly carries
`"done": false` is echoed into the single returned event, which is
therefore not terminal, refuting the claim that the one produced event
is terminal for every tolerated wire shape. -/
theorem c5_done_false_counterexample :
    isTerminal (handleNonStreaming "researcher"
      (Body.parsed (JVal.dict (some "x") none none (some false)))) = false :=
  rfl

/-- C5 (amended): a non-streaming success produces exactly one event:
it carries the full response text of each tolerated wire shape (bare
string, structured object, other JSON, unparseable raw text), echoes
the model id and `created_at` timestamp when the body provides them,
never carries an error, and its `done` flag defaults to `true` — so it
is terminal for every shape except a structured object that explicitly
reports `done: false`, whose flag is echoed. -/
theorem c5_nonstreaming_normalization (model : String) (body : Body) :
    (handleNonStreaming model body).response = bodyResponseText body
    ∧ (handleNonStreaming model body).model = some (bodyModelEcho model body)
    ∧ (handleNonStreaming model body).created_at
        = some (bodyCreatedEcho body)
    ∧ (handleNonStreaming model body).error = none
    ∧ isTerminal (handleNonStreaming model body)
        = (bodyDoneFlag body).getD true := by
  cases body with
  | unparseable t => exact ⟨rfl, rfl, rfl, rfl, rfl⟩
  | parsed v =>
    cases v with
    | str s => exact ⟨rfl, rfl, rfl, rfl, rfl⟩
    | other s => exact ⟨rfl, rfl, rfl, rfl, rfl⟩
    | dict r m c d =>
        refine ⟨rfl, rfl, rfl, rfl, ?_⟩
        cases d with
        | none => rfl
        | some b => cases b <;> rfl

theorem totalSteps_pos (numAreas depth : Nat) :
    0 < totalSteps numAreas depth := by
  unfold totalSteps; omega

theorem totalSteps_cast_pos (numAreas depth : Nat) :
    (0 : ℚ) < (totalSteps numAreas depth : ℚ) := by
  exact_mod_cast totalSteps_pos numAreas depth

theorem stageOfStep_ne_error (numAreas depth k : Nat) :
    stageOfStep numAreas depth k ≠ Stage.error := by
  unfold stageOfStep
  split_ifs <;> simp

theorem stageOfStep_complete_iff (numAreas depth k : Nat)
    (h2 : k ≤ totalSteps numAreas depth) :
    (stageOfStep numAreas depth k = Stage.complete
      ↔ k = totalSteps numAreas depth) := by
  unfold totalSteps at h2 ⊢
  unfold stageOfStep
  split_ifs <;> simp <;> omega

theorem step_fraction_eq_one_iff (numAreas depth k : Nat) :
    ((k : ℚ) / (totalSteps numAreas depth : ℚ) = 1
      ↔ k = totalSteps numAreas depth) := by
  have hb : (totalSteps numAreas depth : ℚ) ≠ 0 :=
    ne_of_gt (totalSteps_cast_pos numAreas depth)
  rw [div_eq_one_iff_eq hb]
  exact_mod_cast Iff.rfl

theorem err_fraction_ne_one (numAreas depth k : Nat)
    (h2 : k ≤ totalSteps numAreas depth) :
    ((k : ℚ) - 1) / (totalSteps numAreas depth : ℚ) ≠ 1 := by
  have hb : (totalSteps numAreas depth : ℚ) ≠ 0 :=
    ne_of_gt (totalSteps_cast_pos numAreas depth)
  intro h
  rw [div_eq_one_iff_eq hb] at h
  have hk : (k : ℚ) ≤ (totalSteps numAreas depth : ℚ) := by exact_mod_cast h2
  linarith

theorem fraction_mono (numAreas depth k : Nat) :
    ((k : ℚ) - 1) / (totalSteps numAreas depth : ℚ)
      ≤ (k : ℚ) / (totalSteps numAreas depth : ℚ) := by
  have hb := totalSteps_cast_pos numAreas depth
  apply div_le_div_of_nonneg_right ?_ hb.le
  linarith

theorem runFrom_succ_ne_nil (numAreas depth : Nat)
    (outcome : Nat → Option String) (fuel k : Nat) :
    runFrom numAreas depth outcome (fuel + 1) k ≠ [] := by
  simp only [runFrom]
  cases outcome k <;> simp

theorem runFrom_err (numAreas depth : Nat) (outcome : Nat → Option String)
    (fuel k : Nat) (msg : String) (hoc : outcome k = some msg) :
    runFrom numAreas depth outcome (fuel + 1) k
      = [{ stage := Stage.error, message := msg,
           fraction := ((k : ℚ) - 1) / (totalSteps numAreas depth : ℚ) }] := by
  simp only [runFrom, hoc]

theorem runFrom_step (numAreas depth : Nat) (outcome : Nat → Option String)
    (fuel k : Nat) (hoc : outcome k = none) :
    runFrom numAreas depth outcome (fuel + 1) k
      = { stage := stageOfStep numAreas depth k, message := stepMessage k,
          fraction := (k : ℚ) / (totalSteps numAreas depth : ℚ) }
          :: runFrom numAreas depth outcome fuel (k + 1) := by
  simp only [runFrom, hoc]

theorem runFrom_inv (numAreas depth : Nat) (outcome : Nat → Option String) :
    ∀ fuel k, fuel + k = totalSteps numAreas depth + 1 → 1 ≤ k →
      (List.Chain' (· ≤ ·)
        ((((k : ℚ) - 1) / (totalSteps numAreas depth : ℚ))
          :: (runFrom numAreas depth outcome fuel k).map
              ProgressEvent.fraction))
      ∧ errorIsLast (runFrom numAreas depth outcome fuel k) = true
      ∧ reachesFullProgress (runFrom numAreas depth outcome fuel k)
          = lastIsComplete (runFrom numAreas depth outcome fuel k) := by
  intro fuel
  induction fuel with
  | zero =>
      intro k hk h1
      exact ⟨List.chain'_singleton _, rfl, rfl⟩
  | succ fuel ih =>
      intro k hk h1
      have hkT : k ≤ totalSteps numAreas depth := by omega
      cases hoc : outcome k with
      | some msg =>
          rw [runFrom_err numAreas depth outcome fuel k msg hoc]
          refine ⟨?_, rfl, ?_⟩
          · simp [List.chain'_cons, List.chain'_singleton]
          · simp [reachesFullProgress, lastIsComplete,
              err_fraction_ne_one numAreas depth k hkT]
      | none =>
          rw [runFrom_step numAreas depth outcome fuel k hoc]
          cases fuel with
          | zero =>
              have hkeq : k = totalSteps numAreas depth := by omega
              refine ⟨?_, ?_, ?_⟩
              · simp [runFrom, List.chain'_cons, List.chain'_singleton,
                  fraction_mono]
              · simp [runFrom, errorIsLast]
              · simp [runFrom, reachesFullProgress, lastIsComplete,
                  (step_fraction_eq_one_iff numAreas depth k).mpr hkeq,
                  (stageOfStep_complete_iff numAreas depth k hkT).mpr hkeq]
          | succ fuel2 =>
              have ihk := ih (k + 1) (by omega) (by omega)
              have hcast : (((k + 1 : Nat) : ℚ) - 1) = (k : ℚ) := by
                push_cast; ring
              rw [hcast] at ihk
              obtain ⟨r, rs, hr⟩ :=
                List.exists_cons_of_ne_nil
                  (runFrom_succ_ne_nil numAreas depth outcome fuel2 (k + 1))
              rw [hr] at ihk
              rw [hr]
              have hfne : (k : ℚ) / (totalSteps numAreas depth : ℚ) ≠ 1 := by
                intro h
                exact absurd ((step_fraction_eq_one_iff numAreas depth k).mp h)
                  (by omega)
              refine ⟨?_, ?_, ?_⟩
              · simp only [List.map_cons, List.chain'_cons]
                refine ⟨fraction_mono numAreas depth k, ?_⟩
                simpa using ihk.1
              · simp [errorIsLast, stageOfStep_ne_error numAreas depth k,
                  ihk.2.1]
              · simp only [reachesFullProgress, List.any_cons] at ihk ⊢
                simp [lastIsComplete, hfne, ihk.2.2]

/-- C6: for every pipeline run, the sequence of progress fractions is
non-decreasing, some event carries fraction exactly `1` precisely when
the terminal (last) event is `Complete`, and any `Error` event is the
last event emitted — nothing follows it. -/
theorem c6_pipeline_progress (numAreas depth : Nat)
    (outcome : Nat → Option String) :
    List.Chain' (· ≤ ·)
      ((pipelineRun numAreas depth outcome).map ProgressEvent.fraction)
    ∧ reachesFullProgress (pipelineRun numAreas depth outcome)
        = lastIsComplete (pipelineRun numAreas depth outcome)
    ∧ errorIsLast (pipelineRun numAreas depth outcome) = true := by
  have h := runFrom_inv numAreas depth outcome (totalSteps numAreas depth) 1
    (by omega) (by omega)
  exact ⟨h.1.tail, h.2.2, h.2.1⟩

end Ollama
